import Mathlib

/-!
Shallow embedding of the restaurant-booking MCP tool server
(`src/mcp_server.py`): the static catalog `RESTAURANTS`, the in-memory
reservation store `RESERVATIONS` (modelled as an insertion-ordered
association list with Python-dict semantics), and the four tool
functions `check_availability` (via `_check_availability_logic`),
`make_reservation`, `cancel_reservation` and `list_reservations`.
Stateful functions take the store explicitly and return the new store;
the random uuid suffix of a reservation id is an explicit input.
-/

/-- A table of a restaurant: `{"id": ..., "seats": ...}`. Guest counts are
Python ints, so seats are modelled as `Int` for comparisons. -/
structure Table where
  id : Nat
  seats : Int
  deriving Repr, DecidableEq

/-- A catalog entry of `RESTAURANTS`. -/
structure Restaurant where
  name : String
  city : String
  address : String
  tables : List Table
  openTime : String
  closeTime : String
  deriving Repr, DecidableEq

/-- The static `RESTAURANTS` catalog of `src/mcp_server.py`, in declaration
order. -/
def RESTAURANTS : List (String × Restaurant) :=
  [ ("bachevski",
      { name := "Baczewski", city := "Lviv", address := "8 Shevska Str.",
        tables := [⟨1, 2⟩, ⟨2, 4⟩, ⟨3, 6⟩, ⟨4, 8⟩],
        openTime := "10:00", closeTime := "23:00" }),
    ("kryivka",
      { name := "Kryivka", city := "Lviv", address := "14 Rynok Sq.",
        tables := [⟨1, 4⟩, ⟨2, 4⟩, ⟨3, 6⟩],
        openTime := "12:00", closeTime := "00:00" }) ]

/-- Association-list lookup, first match: Python `dict` indexing (keys are
unique in an actual dict, so first match is the match). -/
def lookupL {α : Type} : List (String × α) → String → Option α
  | [], _ => none
  | (k, v) :: rest, key => if key == k then some v else lookupL rest key

/-- A reservation record as built by `make_reservation`. -/
structure Resv where
  reservation_id : String
  restaurant : String
  restaurant_name : String
  address : String
  date : String
  time : String
  guests : Int
  table_id : Nat
  name : String
  phone : String
  status : String
  deriving Repr, DecidableEq

/-- The `RESERVATIONS` dict: insertion-ordered entries, keyed by booking key
or by reservation id. -/
abbrev Store := List (String × Resv)

/-- Python dict assignment `d[k] = v`: replace in place if the key exists,
else append at the end (insertion order preserved). -/
def insertS : Store → String → Resv → Store
  | [], k, v => [(k, v)]
  | (k', v') :: rest, k, v =>
      if k' == k then (k, v) :: rest else (k', v') :: insertS rest k v

/-- Python `d.pop(k, None)`: remove the entry with key `k` (as a filter,
which agrees with `pop` on dict-shaped lists and is total). -/
def eraseS (s : Store) (k : String) : Store :=
  s.filter (fun e => e.1 != k)

/-- Python `k in d`. -/
def containsKey (s : Store) (k : String) : Bool :=
  s.any (fun e => e.1 == k)

/-- Python `d[k]` / `k in d` lookup on the reservation store. -/
def lookupS (s : Store) (k : String) : Option Resv :=
  lookupL s k

/-- `_booking_key(restaurant, date, time, table_id)`:
`f"{restaurant}_{date}_{time}_{table_id}"`. -/
def booking_key (restaurant date time : String) (table_id : Nat) : String :=
  restaurant ++ "_" ++ date ++ "_" ++ time ++ "_" ++ toString table_id

/-- The booking key of a stored reservation record. -/
def bkeyOf (r : Resv) : String :=
  booking_key r.restaurant r.date r.time r.table_id

/-- Result dict of `_check_availability_logic` / `check_availability`:
absent dict fields are `none`. -/
structure AvailResult where
  available : Bool
  error : Option String
  restaurant : Option String
  date : Option String
  time : Option String
  tables : List Table
  deriving Repr, DecidableEq

/-- The availability filter of `_check_availability_logic`: seat capacity at
least the guest count, and the booking key not present in the store. -/
def availPred (store : Store) (restaurant date time : String) (guests : Int)
    (t : Table) : Bool :=
  decide (guests ≤ t.seats) &&
    !containsKey store (booking_key restaurant date time t.id)

/-- `_check_availability_logic` of `src/mcp_server.py` (lines 197-224):
unknown restaurant reports an error; otherwise filter the catalog tables by
capacity and booking-key freedom, in declaration order. `check_availability`
(lines 47-62) only logs and delegates here. -/
def check_availability_logic (store : Store) (restaurant date time : String)
    (guests : Int) : AvailResult :=
  match lookupL RESTAURANTS restaurant with
  | none =>
      { available := false,
        error := some ("Restaurant '" ++ restaurant ++ "' not found"),
        restaurant := none, date := none, time := none, tables := [] }
  | some rest =>
      let available_tables :=
        rest.tables.filter (availPred store restaurant date time guests)
      { available := decide (0 < available_tables.length),
        error := none,
        restaurant := some rest.name, date := some date, time := some time,
        tables := available_tables }

/-- `date.replace('-', '')` for the reservation-id prefix. -/
def stripDashes (s : String) : String :=
  ⟨s.data.filter (fun c => c != '-')⟩

/-- The `details` block of a confirmed `make_reservation` response. -/
structure MakeDetails where
  restaurant : String
  address : String
  date : String
  time : String
  guests : Int
  table : Nat
  deriving Repr, DecidableEq

/-- Response dict of `make_reservation`. -/
structure MakeResult where
  status : String
  error : Option String
  reservation_id : Option String
  details : Option MakeDetails
  deriving Repr, DecidableEq

/-- `make_reservation` of `src/mcp_server.py` (lines 64-131). The uuid hex
suffix of the generated id is passed in as `suffix`. Returns the response
dict and the updated store. The inner `[]` branch is unreachable: the
availability flag is exactly non-emptiness of the filtered table list. -/
def make_reservation (store : Store) (restaurant date time : String)
    (guests : Int) (nm phone suffix : String) : MakeResult × Store :=
  let availability := check_availability_logic store restaurant date time guests
  if availability.available then
    match availability.tables with
    | [] =>
        ({ status := "failed", error := some "No tables available at this time",
           reservation_id := none, details := none }, store)
    | table :: _ =>
        let reservation_id := "RES-" ++ stripDashes date ++ "-" ++ suffix
        let reservation : Resv :=
          { reservation_id := reservation_id,
            restaurant := restaurant,
            restaurant_name :=
              ((lookupL RESTAURANTS restaurant).map Restaurant.name).getD "",
            address :=
              ((lookupL RESTAURANTS restaurant).map Restaurant.address).getD "",
            date := date, time := time, guests := guests,
            table_id := table.id, name := nm, phone := phone,
            status := "confirmed" }
        let store1 := insertS store (booking_key restaurant date time table.id)
          reservation
        let store2 := insertS store1 reservation_id reservation
        ({ status := "confirmed", error := none,
           reservation_id := some reservation_id,
           details := some
             { restaurant := reservation.restaurant_name,
               address := reservation.address,
               date := date, time := time, guests := guests,
               table := table.id } }, store2)
  else
    ({ status := "failed", error := some "No tables available at this time",
       reservation_id := none, details := none }, store)

/-- Response dict of `cancel_reservation`. -/
structure CancelResult where
  status : String
  message : Option String
  error : Option String
  deriving Repr, DecidableEq

/-- `cancel_reservation` of `src/mcp_server.py` (lines 134-161): look the
argument up in the shared store; if absent report not-found, else pop the
record's booking key and the argument and report cancelled. -/
def cancel_reservation (store : Store) (reservation_id : String) :
    CancelResult × Store :=
  match lookupS store reservation_id with
  | none =>
      ({ status := "failed", message := none,
         error := some ("Reservation '" ++ reservation_id ++ "' not found") },
       store)
  | some reservation =>
      let key := booking_key reservation.restaurant reservation.date
        reservation.time reservation.table_id
      let store1 := eraseS store key
      let store2 := eraseS store1 reservation_id
      ({ status := "cancelled",
         message := some ("Reservation " ++ reservation_id ++
           " successfully cancelled"),
         error := none }, store2)

/-- Response dict of `list_reservations`. -/
structure ListResult where
  count : Nat
  reservations : List Resv
  deriving Repr, DecidableEq

/-- `list_reservations` of `src/mcp_server.py` (lines 164-177): linear scan
over all stored values (every value is a reservation record, so the
`isinstance` guard is always true), filtered by exact phone match. -/
def list_reservations (store : Store) (phone : String) : ListResult :=
  let reservations := (store.map Prod.snd).filter (fun r => r.phone == phone)
  { count := reservations.length, reservations := reservations }

/-!
Lemmas about the store operations (Python-dict semantics on association
lists) and about the string shapes of booking keys and reservation ids.
-/

theorem containsKey_iff {S : Store} {k : String} :
    containsKey S k = true ↔ ∃ e ∈ S, e.1 = k := by
  simp [containsKey, List.any_eq_true, beq_iff_eq]

theorem containsKey_eq_false_iff {S : Store} {k : String} :
    containsKey S k = false ↔ ∀ e ∈ S, e.1 ≠ k := by
  rw [← Bool.not_eq_true, containsKey_iff]
  push_neg
  exact Iff.rfl

theorem mem_insertS {S : Store} {k : String} {v : Resv} {e : String × Resv}
    (h : e ∈ insertS S k v) : e = (k, v) ∨ e ∈ S := by
  induction S with
  | nil =>
    simp [insertS] at h
    simp [h]
  | cons hd tl ih =>
    obtain ⟨k', v'⟩ := hd
    simp only [insertS] at h
    by_cases hk : (k' == k) = true
    · rw [if_pos hk] at h
      rcases List.mem_cons.mp h with h1 | h1
      · exact Or.inl h1
      · exact Or.inr (List.mem_cons_of_mem _ h1)
    · rw [if_neg hk] at h
      rcases List.mem_cons.mp h with h1 | h1
      · exact Or.inr (h1 ▸ List.mem_cons_self _ _)
      · rcases ih h1 with h2 | h2
        · exact Or.inl h2
        · exact Or.inr (List.mem_cons_of_mem _ h2)

theorem self_mem_insertS (S : Store) (k : String) (v : Resv) :
    (k, v) ∈ insertS S k v := by
  induction S with
  | nil => simp [insertS]
  | cons hd tl ih =>
    obtain ⟨k', v'⟩ := hd
    simp only [insertS]
    by_cases hk : (k' == k) = true
    · rw [if_pos hk]
      exact List.mem_cons_self _ _
    · rw [if_neg hk]
      exact List.mem_cons_of_mem _ ih

theorem mem_insertS_of_ne {S : Store} {e : String × Resv} (k : String)
    (v : Resv) (he : e ∈ S) (hne : e.1 ≠ k) : e ∈ insertS S k v := by
  induction S with
  | nil => cases he
  | cons hd tl ih =>
    obtain ⟨k', v'⟩ := hd
    simp only [insertS]
    by_cases hk : (k' == k) = true
    · rw [if_pos hk]
      rcases List.mem_cons.mp he with h1 | h1
      · exact absurd (h1 ▸ beq_iff_eq.mp hk) hne
      · exact List.mem_cons_of_mem _ h1
    · rw [if_neg hk]
      rcases List.mem_cons.mp he with h1 | h1
      · exact h1 ▸ List.mem_cons_self _ _
      · exact List.mem_cons_of_mem _ (ih h1)

theorem containsKey_insertS_self (S : Store) (k : String) (v : Resv) :
    containsKey (insertS S k v) k = true :=
  containsKey_iff.mpr ⟨(k, v), self_mem_insertS S k v, rfl⟩

theorem containsKey_insertS_of {S : Store} {j : String} (k : String) (v : Resv)
    (h : containsKey S j = true) : containsKey (insertS S k v) j = true := by
  rcases containsKey_iff.mp h with ⟨e, he, hk⟩
  by_cases hjk : j = k
  · exact hjk ▸ containsKey_insertS_self S k v
  · exact containsKey_iff.mpr ⟨e, mem_insertS_of_ne k v he (hk ▸ hjk), hk⟩

theorem mem_eraseS {S : Store} {k : String} {e : String × Resv} :
    e ∈ eraseS S k ↔ e ∈ S ∧ e.1 ≠ k := by
  simp [eraseS, List.mem_filter, bne_iff_ne]

theorem containsKey_eraseS_self (S : Store) (k : String) :
    containsKey (eraseS S k) k = false :=
  containsKey_eq_false_iff.mpr (fun _e he => (mem_eraseS.mp he).2)

theorem containsKey_of_eraseS {S : Store} {j k : String}
    (h : containsKey (eraseS S j) k = true) : containsKey S k = true := by
  rcases containsKey_iff.mp h with ⟨e, he, hk⟩
  exact containsKey_iff.mpr ⟨e, (mem_eraseS.mp he).1, hk⟩

theorem lookupS_mem {S : Store} {k : String} {r : Resv}
    (h : lookupS S k = some r) : (k, r) ∈ S := by
  induction S with
  | nil => simp [lookupS, lookupL] at h
  | cons hd tl ih =>
    obtain ⟨k', v'⟩ := hd
    simp only [lookupS, lookupL] at h
    by_cases hk : (k == k') = true
    · rw [if_pos hk] at h
      have : v' = r := by injection h
      exact (beq_iff_eq.mp hk) ▸ this ▸ List.mem_cons_self _ _
    · rw [if_neg hk] at h
      exact List.mem_cons_of_mem _ (ih h)

theorem lookupS_eq_none {S : Store} {k : String}
    (h : containsKey S k = false) : lookupS S k = none := by
  induction S with
  | nil => rfl
  | cons hd tl ih =>
    obtain ⟨k', v'⟩ := hd
    have hall := containsKey_eq_false_iff.mp h
    have hne : k' ≠ k := hall (k', v') (List.mem_cons_self _ _)
    have htl : containsKey tl k = false :=
      containsKey_eq_false_iff.mpr (fun e he => hall e (List.mem_cons_of_mem _ he))
    simp only [lookupS, lookupL]
    rw [if_neg (by simpa [beq_iff_eq] using fun hkk => hne hkk.symm)]
    exact ih htl

theorem lookupS_eraseS_ne {S : Store} {j k : String} (h : j ≠ k) :
    lookupS (eraseS S k) j = lookupS S j := by
  induction S with
  | nil => rfl
  | cons hd tl ih =>
    obtain ⟨k', v'⟩ := hd
    simp only [eraseS, List.filter_cons]
    by_cases hk : (k' != k) = true
    · rw [if_pos hk]
      simp only [lookupS, lookupL]
      by_cases hj : (j == k') = true
      · rw [if_pos hj, if_pos hj]
      · rw [if_neg hj, if_neg hj]
        exact ih
    · rw [if_neg hk]
      have hkk : k' = k := by
        by_contra hne
        exact hk (bne_iff_ne.mpr hne)
      have hjk : (j == k') = false := by
        rw [hkk]
        exact beq_eq_false_iff_ne.mpr h
      simp only [lookupS, lookupL] at ih ⊢
      rw [if_neg (by simp [hjk])]
      exact ih

theorem booking_key_eq_append (r d t : String) (i : Nat) :
    booking_key r d t i = r ++ ("_" ++ d ++ "_" ++ t ++ "_" ++ toString i) := by
  simp [booking_key, String.append_assoc]

theorem bachevski_append_ne_res (s t : String) :
    "bachevski" ++ s ≠ "RES-" ++ t := by
  intro h
  have h2 := congrArg String.data h
  rw [String.data_append, String.data_append] at h2
  rw [show ("bachevski" : String).data = ['b','a','c','h','e','v','s','k','i']
        from by decide,
      show ("RES-" : String).data = ['R','E','S','-'] from by decide] at h2
  simp at h2

theorem kryivka_append_ne_res (s t : String) :
    "kryivka" ++ s ≠ "RES-" ++ t := by
  intro h
  have h2 := congrArg String.data h
  rw [String.data_append, String.data_append] at h2
  rw [show ("kryivka" : String).data = ['k','r','y','i','v','k','a']
        from by decide,
      show ("RES-" : String).data = ['R','E','S','-'] from by decide] at h2
  simp at h2

/-- A booking key of a catalog restaurant is never a generated
reservation-id string (those start with the four characters of the
reservation-id tag). -/
theorem bkey_ne_res {r : Resv}
    (hr : r.restaurant = "bachevski" ∨ r.restaurant = "kryivka")
    (s : String) : bkeyOf r ≠ "RES-" ++ s := by
  rw [bkeyOf, booking_key_eq_append]
  rcases hr with h | h <;> rw [h]
  · exact bachevski_append_ne_res _ s
  · exact kryivka_append_ne_res _ s

theorem lookupR_cases {x : String} {rest : Restaurant}
    (h : lookupL RESTAURANTS x = some rest) :
    x = "bachevski" ∨ x = "kryivka" := by
  by_cases h1 : (x == "bachevski") = true
  · exact Or.inl (beq_iff_eq.mp h1)
  · by_cases h2 : (x == "kryivka") = true
    · exact Or.inr (beq_iff_eq.mp h2)
    · simp [lookupL, RESTAURANTS, h1, h2] at h

theorem check_tables_eq {S : Store} {r d t : String} {g : Int}
    {rest : Restaurant} (h : lookupL RESTAURANTS r = some rest) :
    (check_availability_logic S r d t g).tables =
      rest.tables.filter (availPred S r d t g) := by
  simp [check_availability_logic, h]

theorem check_error_eq {S : Store} {r d t : String} {g : Int}
    {rest : Restaurant} (h : lookupL RESTAURANTS r = some rest) :
    (check_availability_logic S r d t g).error = none := by
  simp [check_availability_logic, h]

theorem check_available_eq {S : Store} {r d t : String} {g : Int}
    {rest : Restaurant} (h : lookupL RESTAURANTS r = some rest) :
    (check_availability_logic S r d t g).available =
      decide (0 < (rest.tables.filter (availPred S r d t g)).length) := by
  simp [check_availability_logic, h]

theorem check_not_available_of_unknown {S : Store} {r d t : String} {g : Int}
    (h : lookupL RESTAURANTS r = none) :
    (check_availability_logic S r d t g).available = false := by
  simp [check_availability_logic, h]

/-- Case analysis of `make_reservation`: either a table is allocated (known
restaurant, non-empty availability filter) and the first filtered table is
booked under both store keys, or nothing qualifies and the call fails with
the generic message, leaving the store unchanged. -/
theorem make_reservation_eq (S : Store) (r d t : String) (g : Int)
    (nm p suf : String) :
    (∃ rest table rest2,
      lookupL RESTAURANTS r = some rest ∧
      rest.tables.filter (availPred S r d t g) = table :: rest2 ∧
      make_reservation S r d t g nm p suf =
        ({ status := "confirmed", error := none,
           reservation_id := some ("RES-" ++ stripDashes d ++ "-" ++ suf),
           details := some
             { restaurant := rest.name, address := rest.address,
               date := d, time := t, guests := g, table := table.id } },
         insertS
           (insertS S (booking_key r d t table.id)
             { reservation_id := "RES-" ++ stripDashes d ++ "-" ++ suf,
               restaurant := r, restaurant_name := rest.name,
               address := rest.address, date := d, time := t, guests := g,
               table_id := table.id, name := nm, phone := p,
               status := "confirmed" })
           ("RES-" ++ stripDashes d ++ "-" ++ suf)
           { reservation_id := "RES-" ++ stripDashes d ++ "-" ++ suf,
             restaurant := r, restaurant_name := rest.name,
             address := rest.address, date := d, time := t, guests := g,
             table_id := table.id, name := nm, phone := p,
             status := "confirmed" })) ∨
    (make_reservation S r d t g nm p suf =
      ({ status := "failed", error := some "No tables available at this time",
         reservation_id := none, details := none }, S) ∧
     (lookupL RESTAURANTS r = none ∨
      ∃ rest, lookupL RESTAURANTS r = some rest ∧
        rest.tables.filter (availPred S r d t g) = [])) := by
  cases hlook : lookupL RESTAURANTS r with
  | none =>
    right
    constructor
    · simp [make_reservation, check_availability_logic, hlook]
    · exact Or.inl rfl
  | some rest =>
    cases hfil : rest.tables.filter (availPred S r d t g) with
    | nil =>
      right
      constructor
      · simp [make_reservation, check_availability_logic, hlook, hfil]
      · exact Or.inr ⟨rest, rfl, hfil⟩
    | cons table rest2 =>
      left
      refine ⟨rest, table, rest2, rfl, hfil, ?_⟩
      simp [make_reservation, check_availability_logic, hlook, hfil]

/-- Case analysis of `cancel_reservation`: not-found failure leaving the
store unchanged, or removal of the found record's booking key and of the
argument key. -/
theorem cancel_reservation_eq (S : Store) (i : String) :
    (lookupS S i = none ∧
      cancel_reservation S i =
        ({ status := "failed", message := none,
           error := some ("Reservation '" ++ i ++ "' not found") }, S)) ∨
    (∃ r, lookupS S i = some r ∧
      cancel_reservation S i =
        ({ status := "cancelled",
           message := some ("Reservation " ++ i ++ " successfully cancelled"),
           error := none },
         eraseS (eraseS S (bkeyOf r)) i)) := by
  cases hl : lookupS S i with
  | none =>
    left
    exact ⟨rfl, by simp [cancel_reservation, lookupS] at hl ⊢; rw [hl]⟩
  | some r =>
    right
    refine ⟨r, rfl, ?_⟩
    simp only [cancel_reservation, lookupS] at hl ⊢
    rw [hl]
    rfl

/-!
The booking-key uniqueness invariant (claim C1) and the store invariant
that carries it through sequences of `make_reservation` and
`cancel_reservation` calls.
-/

/-- No two active reservation records in the store share a booking key. -/
def UniqueBookingKeys (S : Store) : Prop :=
  ∀ e1 ∈ S, ∀ e2 ∈ S, bkeyOf e1.2 = bkeyOf e2.2 → e1.2 = e2.2

/-- The inductive store invariant: every entry is keyed by its record's
booking key or reservation id, every stored record's booking-key entry is
present, reservation ids carry the generated tag, restaurants come from the
catalog, and booking keys are unique. -/
structure StoreInv (S : Store) : Prop where
  keyShape : ∀ e ∈ S, e.1 = bkeyOf e.2 ∨ e.1 = e.2.reservation_id
  bkeyPresent : ∀ e ∈ S, containsKey S (bkeyOf e.2) = true
  idShape : ∀ e ∈ S, ∃ s, e.2.reservation_id = "RES-" ++ s
  restShape : ∀ e ∈ S,
    e.2.restaurant = "bachevski" ∨ e.2.restaurant = "kryivka"
  uniq : UniqueBookingKeys S

theorem storeInv_nil : StoreInv [] := by
  constructor <;> intro e he <;> cases he

theorem insert_pair_preserves_inv {S : Store} {rec : Resv} {K I : String}
    (h : StoreInv S) (hKe : K = bkeyOf rec) (hIe : I = rec.reservation_id)
    (hK : containsKey S (bkeyOf rec) = false)
    (hid : ∃ s, rec.reservation_id = "RES-" ++ s)
    (hrest : rec.restaurant = "bachevski" ∨ rec.restaurant = "kryivka") :
    StoreInv (insertS (insertS S K rec) I rec) := by
  subst hKe
  subst hIe
  have hmem : ∀ e, e ∈ insertS (insertS S (bkeyOf rec) rec)
      rec.reservation_id rec →
      e = (rec.reservation_id, rec) ∨ e = (bkeyOf rec, rec) ∨ e ∈ S := by
    intro e he
    rcases mem_insertS he with h1 | h1
    · exact Or.inl h1
    · rcases mem_insertS h1 with h2 | h2
      · exact Or.inr (Or.inl h2)
      · exact Or.inr (Or.inr h2)
  constructor
  · intro e he
    rcases hmem e he with h1 | h1 | h1
    · exact Or.inr (by rw [h1])
    · exact Or.inl (by rw [h1])
    · exact h.keyShape e h1
  · intro e he
    have hKin : containsKey (insertS (insertS S (bkeyOf rec) rec)
        rec.reservation_id rec) (bkeyOf rec) = true :=
      containsKey_insertS_of _ _ (containsKey_insertS_self S (bkeyOf rec) rec)
    rcases hmem e he with h1 | h1 | h1
    · rw [h1]; exact hKin
    · rw [h1]; exact hKin
    · exact containsKey_insertS_of _ _
        (containsKey_insertS_of _ _ (h.bkeyPresent e h1))
  · intro e he
    rcases hmem e he with h1 | h1 | h1
    · rw [h1]; exact hid
    · rw [h1]; exact hid
    · exact h.idShape e h1
  · intro e he
    rcases hmem e he with h1 | h1 | h1
    · rw [h1]; exact hrest
    · rw [h1]; exact hrest
    · exact h.restShape e h1
  · intro e1 he1 e2 he2 hbk
    have old_ne : ∀ f ∈ S, bkeyOf f.2 ≠ bkeyOf rec := by
      intro f hf heq
      have := h.bkeyPresent f hf
      rw [heq, hK] at this
      cases this
    rcases hmem e1 he1 with h1 | h1 | h1 <;>
      rcases hmem e2 he2 with h2 | h2 | h2
    · rw [h1, h2]
    · rw [h1, h2]
    · exact absurd (show bkeyOf e2.2 = bkeyOf rec by rw [← hbk, h1])
        (old_ne e2 h2)
    · rw [h1, h2]
    · rw [h1, h2]
    · exact absurd (show bkeyOf e2.2 = bkeyOf rec by rw [← hbk, h1])
        (old_ne e2 h2)
    · exact absurd (show bkeyOf e1.2 = bkeyOf rec by rw [hbk, h2])
        (old_ne e1 h1)
    · exact absurd (show bkeyOf e1.2 = bkeyOf rec by rw [hbk, h2])
        (old_ne e1 h1)
    · exact h.uniq e1 h1 e2 h2 hbk

theorem make_preserves_inv {S : Store} (h : StoreInv S) (r d t : String)
    (g : Int) (nm p suf : String) :
    StoreInv (make_reservation S r d t g nm p suf).2 := by
  rcases make_reservation_eq S r d t g nm p suf with
    ⟨rest, table, rest2, hlook, hfil, heq⟩ | ⟨heq, _⟩
  · rw [heq]
    have htab : availPred S r d t g table = true := by
      have hmem : table ∈ rest.tables.filter (availPred S r d t g) := by
        rw [hfil]
        exact List.mem_cons_self _ _
      exact (List.mem_filter.mp hmem).2
    simp only [availPred, Bool.and_eq_true, Bool.not_eq_true',
      decide_eq_true_eq] at htab
    exact insert_pair_preserves_inv h rfl rfl htab.2
      ⟨stripDashes d ++ ("-" ++ suf),
        by rw [String.append_assoc, String.append_assoc]⟩
      (lookupR_cases hlook)
  · rw [heq]
    exact h

theorem cancel_preserves_inv {S : Store} (h : StoreInv S) {i : String}
    (hsafe : ∃ s, i = "RES-" ++ s) :
    StoreInv (cancel_reservation S i).2 := by
  rcases cancel_reservation_eq S i with ⟨_, heq⟩ | ⟨r, hl, heq⟩
  · rw [heq]
    exact h
  · rw [heq]
    have hmemS : (i, r) ∈ S := lookupS_mem hl
    have hrestr := h.restShape (i, r) hmemS
    have hid : i = r.reservation_id := by
      rcases h.keyShape (i, r) hmemS with hk | hk
      · exfalso
        rcases hsafe with ⟨s, hs⟩
        have hk' : i = bkeyOf r := hk
        exact bkey_ne_res hrestr s (by rw [← hk', hs])
      · exact hk
    have hmem' : ∀ e, e ∈ eraseS (eraseS S (bkeyOf r)) i ↔
        e ∈ S ∧ e.1 ≠ bkeyOf r ∧ e.1 ≠ i := by
      intro e
      rw [mem_eraseS, mem_eraseS]
      tauto
    constructor
    · intro e he
      exact h.keyShape e ((hmem' e).mp he).1
    · intro e he
      obtain ⟨heS, hne1, hne2⟩ := (hmem' e).mp he
      rcases containsKey_iff.mp (h.bkeyPresent e heS) with ⟨f, hf, hfk⟩
      have hfne2 : f.1 ≠ i := by
        intro hcon
        rcases hsafe with ⟨s, hs⟩
        exact bkey_ne_res (h.restShape e heS) s (by rw [← hfk, hcon, hs])
      have hfne1 : f.1 ≠ bkeyOf r := by
        intro hcon
        have hbk : bkeyOf e.2 = bkeyOf r := by rw [← hfk, hcon]
        have heq2 : e.2 = r := h.uniq e heS (i, r) hmemS hbk
        rcases h.keyShape e heS with hk | hk
        · exact hne1 (by rw [hk, heq2])
        · exact hne2 (by rw [hk, heq2, ← hid])
      exact containsKey_iff.mpr ⟨f, (hmem' f).mpr ⟨hf, hfne1, hfne2⟩, hfk⟩
    · intro e he
      exact h.idShape e ((hmem' e).mp he).1
    · intro e he
      exact h.restShape e ((hmem' e).mp he).1
    · intro e1 he1 e2 he2 hbk
      exact h.uniq e1 ((hmem' e1).mp he1).1 e2 ((hmem' e2).mp he2).1 hbk

/-- A single sequential tool call against the reservation store: a
`make_reservation` (with its uuid suffix made explicit) or a
`cancel_reservation`. -/
inductive Op where
  | make (restaurant date time : String) (guests : Int)
      (nm phone suffix : String)
  | cancel (reservation_id : String)
  deriving Repr, DecidableEq

/-- The store after one tool call (the response dict is dropped). -/
def stepOp (store : Store) : Op → Store
  | Op.make r d t g nm p suf => (make_reservation store r d t g nm p suf).2
  | Op.cancel i => (cancel_reservation store i).2

/-- The store after a sequence of sequential tool calls starting from the
empty reservation store. -/
def runOps (ops : List Op) : Store :=
  ops.foldl stepOp []

/-- A call is id-safe when any cancellation argument has the generated
reservation-id shape (the four-character tag prefix) rather than being a
booking-key string. -/
def safeCancelArg : Op → Prop
  | Op.cancel i => ∃ s, i = "RES-" ++ s
  | _ => True

theorem stepOp_preserves_inv {S : Store} (h : StoreInv S) {op : Op}
    (hs : safeCancelArg op) : StoreInv (stepOp S op) := by
  cases op with
  | make r d t g nm p suf => exact make_preserves_inv h r d t g nm p suf
  | cancel i => exact cancel_preserves_inv h hs

theorem foldl_stepOp_inv : ∀ (ops : List Op) (S : Store), StoreInv S →
    (∀ op ∈ ops, safeCancelArg op) → StoreInv (ops.foldl stepOp S)
  | [], _, h, _ => h
  | op :: rest, S, h, hall =>
    foldl_stepOp_inv rest (stepOp S op)
      (stepOp_preserves_inv h (hall op (List.mem_cons_self _ _)))
      (fun o ho => hall o (List.mem_cons_of_mem _ ho))

instance (S : Store) : Decidable (UniqueBookingKeys S) := by
  unfold UniqueBookingKeys
  infer_instance

/-- C1 (amended): for every sequence of sequential `make_reservation` and
`cancel_reservation` calls starting from the empty reservation store, in
which every cancellation argument is a reservation-id-shaped string (the
generated id tag prefix) rather than a booking-key string, no two active
reservations in the store share the same booking key (restaurant, date,
time, table id): at most one active reservation exists per booking key. -/
theorem c1_unique_booking_keys (ops : List Op)
    (hsafe : ∀ op ∈ ops, safeCancelArg op) :
    UniqueBookingKeys (runOps ops) :=
  (foldl_stepOp_inv ops [] storeInv_nil hsafe).uniq

/-- C1 counterexample to the unrestricted claim: book table 1 of
"bachevski" at slot 2025-12-24 19:00, cancel it by passing the BOOKING-KEY
string (which `cancel_reservation` accepts, removing only the booking-key
entry and leaving the reservation-id entry), then book the same slot again:
the store now holds two distinct active reservations with the same booking
key. -/
theorem c1_counterexample :
    ¬ UniqueBookingKeys (runOps
      [Op.make "bachevski" "2025-12-24" "19:00" 2 "Olena" "+380501112233"
         "AAAA",
       Op.cancel "bachevski_2025-12-24_19:00_1",
       Op.make "bachevski" "2025-12-24" "19:00" 2 "Olena" "+380501112233"
         "BBBB"]) := by
  decide

/-- C1 witness: the same trace with the cancellation done through the
generated reservation id satisfies the id-safety hypothesis, and the
theorem yields booking-key uniqueness for it. -/
theorem c1_unique_booking_keys_witness :
    (∀ op ∈ ([Op.make "bachevski" "2025-12-24" "19:00" 2 "Olena"
                "+380501112233" "AAAA",
              Op.cancel "RES-20251224-AAAA",
              Op.make "bachevski" "2025-12-24" "19:00" 2 "Olena"
                "+380501112233" "BBBB"] : List Op), safeCancelArg op) ∧
    UniqueBookingKeys (runOps
      [Op.make "bachevski" "2025-12-24" "19:00" 2 "Olena" "+380501112233"
         "AAAA",
       Op.cancel "RES-20251224-AAAA",
       Op.make "bachevski" "2025-12-24" "19:00" 2 "Olena" "+380501112233"
         "BBBB"]) := by
  have hs : ∀ op ∈ ([Op.make "bachevski" "2025-12-24" "19:00" 2 "Olena"
                "+380501112233" "AAAA",
              Op.cancel "RES-20251224-AAAA",
              Op.make "bachevski" "2025-12-24" "19:00" 2 "Olena"
                "+380501112233" "BBBB"] : List Op), safeCancelArg op := by
    intro op hop
    simp only [List.mem_cons, List.not_mem_nil, or_false] at hop
    rcases hop with rfl | rfl | rfl
    · exact True.intro
    · exact ⟨"20251224-AAAA", by decide⟩
    · exact True.intro
  exact ⟨hs, c1_unique_booking_keys _ hs⟩

theorem containsKey_insertS_insertS_self (S : Store) (k : String) (v : Resv)
    (j : String) (w : Resv) :
    containsKey (insertS (insertS S k v) j w) k = true :=
  containsKey_insertS_of _ _ (containsKey_insertS_self S k v)

theorem containsKey_eraseS_mono {S : Store} {j k : String}
    (h : containsKey S k = false) : containsKey (eraseS S j) k = false := by
  cases hc : containsKey (eraseS S j) k with
  | false => rfl
  | true => exact absurd (containsKey_of_eraseS hc) (by simp [h])

/-- C2: for a known restaurant key, every date/time token and every guest
count, `check_availability` returns exactly the catalog tables with enough
seats whose booking key is free, in catalog declaration order (the filter of
the declared table list, no sort), and the available flag is true iff that
list is non-empty. -/
theorem c2_check_availability (S : Store) (r d t : String) (g : Int)
    (rest : Restaurant) (h : lookupL RESTAURANTS r = some rest) :
    (check_availability_logic S r d t g).tables =
      rest.tables.filter (availPred S r d t g) ∧
    (∀ tb, tb ∈ (check_availability_logic S r d t g).tables ↔
      tb ∈ rest.tables ∧ g ≤ tb.seats ∧
        containsKey S (booking_key r d t tb.id) = false) ∧
    ((check_availability_logic S r d t g).available = true ↔
      (check_availability_logic S r d t g).tables ≠ []) := by
  refine ⟨check_tables_eq h, ?_, ?_⟩
  · intro tb
    rw [check_tables_eq h, List.mem_filter]
    simp [availPred, and_assoc]
  · rw [check_available_eq h, check_tables_eq h]
    simp [List.length_pos]

/-- C2 witness: Scenario A on the empty store, with the known restaurant
key discharged concretely. -/
theorem c2_check_availability_witness :
    lookupL RESTAURANTS "bachevski" = some
      { name := "Baczewski", city := "Lviv", address := "8 Shevska Str.",
        tables := [⟨1, 2⟩, ⟨2, 4⟩, ⟨3, 6⟩, ⟨4, 8⟩],
        openTime := "10:00", closeTime := "23:00" } ∧
    ((check_availability_logic [] "bachevski" "2025-12-24" "19:00" 2).available
        = true ↔
      (check_availability_logic [] "bachevski" "2025-12-24" "19:00" 2).tables
        ≠ []) :=
  ⟨by decide,
   (c2_check_availability [] "bachevski" "2025-12-24" "19:00" 2
      { name := "Baczewski", city := "Lviv", address := "8 Shevska Str.",
        tables := [⟨1, 2⟩, ⟨2, 4⟩, ⟨3, 6⟩, ⟨4, 8⟩],
        openTime := "10:00", closeTime := "23:00" } (by decide)).2.2⟩

/-- C3: the code, at Scenario B's single successful booking followed by
`list_reservations` on the booked phone, returns count 2 with the same
reservation listed twice (the record sits in the store under both its
booking key and its reservation id, and the scan walks all values), where
the spec's Scenario C requires count 1. -/
theorem c3_list_reservations_double_count :
    (list_reservations
      (make_reservation [] "bachevski" "2025-12-24" "19:00" 2 "Olena"
        "+380501112233" "AAAA").2 "+380501112233").count = 2 ∧
    (list_reservations
      (make_reservation [] "bachevski" "2025-12-24" "19:00" 2 "Olena"
        "+380501112233" "AAAA").2 "+380501112233").reservations.map
        Resv.reservation_id = ["RES-20251224-AAAA", "RES-20251224-AAAA"] := by
  constructor
  · decide
  · decide

/-- C4: round trip — if `make_reservation` confirms with table id `T` (in
its details block), the immediately following `check_availability` on the
resulting store for the same slot and guest count excludes every table with
id `T` from its returned list. -/
theorem c4_round_trip (S : Store) (r d t : String) (g : Int)
    (nm p suf : String) (dtl : MakeDetails)
    (hst : (make_reservation S r d t g nm p suf).1.status = "confirmed")
    (hdt : (make_reservation S r d t g nm p suf).1.details = some dtl) :
    ∀ tb ∈ (check_availability_logic
        (make_reservation S r d t g nm p suf).2 r d t g).tables,
      tb.id ≠ dtl.table := by
  rcases make_reservation_eq S r d t g nm p suf with
    ⟨rest, table, rest2, hlook, hfil, heq⟩ | ⟨heq, _⟩
  · rw [heq] at hdt
    have hdtl : dtl.table = table.id := by
      rw [← Option.some.inj hdt]
    have h2 : (make_reservation S r d t g nm p suf).2 =
        insertS
          (insertS S (booking_key r d t table.id)
            { reservation_id := "RES-" ++ stripDashes d ++ "-" ++ suf,
              restaurant := r, restaurant_name := rest.name,
              address := rest.address, date := d, time := t, guests := g,
              table_id := table.id, name := nm, phone := p,
              status := "confirmed" })
          ("RES-" ++ stripDashes d ++ "-" ++ suf)
          { reservation_id := "RES-" ++ stripDashes d ++ "-" ++ suf,
            restaurant := r, restaurant_name := rest.name,
            address := rest.address, date := d, time := t, guests := g,
            table_id := table.id, name := nm, phone := p,
            status := "confirmed" } := by
      rw [heq]
    intro tb htb hcon
    rw [h2, check_tables_eq hlook] at htb
    have hpred := (List.mem_filter.mp htb).2
    simp only [availPred, Bool.and_eq_true, Bool.not_eq_true'] at hpred
    obtain ⟨-, hp2⟩ := hpred
    rw [hcon, hdtl] at hp2
    rw [containsKey_insertS_insertS_self] at hp2
    cases hp2
  · rw [heq] at hst
    have hst2 : ("failed" : String) = "confirmed" := hst
    exact absurd hst2 (by decide)

/-- C4 witness: Scenario B's first booking on the empty store, with the
details block made explicit. -/
theorem c4_round_trip_witness :
    (make_reservation [] "bachevski" "2025-12-24" "19:00" 2 "Olena"
        "+380501112233" "AAAA").1.status = "confirmed" ∧
    (make_reservation [] "bachevski" "2025-12-24" "19:00" 2 "Olena"
        "+380501112233" "AAAA").1.details = some
      { restaurant := "Baczewski", address := "8 Shevska Str.",
        date := "2025-12-24", time := "19:00", guests := 2, table := 1 } ∧
    ∀ tb ∈ (check_availability_logic
        (make_reservation [] "bachevski" "2025-12-24" "19:00" 2 "Olena"
          "+380501112233" "AAAA").2 "bachevski" "2025-12-24" "19:00" 2).tables,
      tb.id ≠ ({ restaurant := "Baczewski", address := "8 Shevska Str.",
                 date := "2025-12-24", time := "19:00", guests := 2,
                 table := 1 } : MakeDetails).table :=
  ⟨by decide, by decide,
   c4_round_trip [] "bachevski" "2025-12-24" "19:00" 2 "Olena"
     "+380501112233" "AAAA" _ (by decide) (by decide)⟩

theorem find?_eq_head?_filter (p : Table → Bool) :
    ∀ l : List Table, l.find? p = (l.filter p).head?
  | [] => rfl
  | a :: l => by
    by_cases h : p a = true
    · rw [List.find?_cons_of_pos _ h, List.filter_cons_of_pos h]
      rfl
    · rw [List.find?_cons_of_neg _ (by simp [h]),
        List.filter_cons_of_neg (by simp [h])]
      exact find?_eq_head?_filter p l

/-- C5: `make_reservation` allocates the FIRST qualifying table in catalog
declaration order (first-fit): whenever it confirms, the table id in the
details block is the id of `List.find?` of the availability filter over the
restaurant's declared table list. -/
theorem c5_first_fit (S : Store) (r d t : String) (g : Int)
    (nm p suf : String) (rest : Restaurant) (dtl : MakeDetails)
    (hlook : lookupL RESTAURANTS r = some rest)
    (hst : (make_reservation S r d t g nm p suf).1.status = "confirmed")
    (hdt : (make_reservation S r d t g nm p suf).1.details = some dtl) :
    ∃ tb, rest.tables.find? (availPred S r d t g) = some tb ∧
      dtl.table = tb.id := by
  rcases make_reservation_eq S r d t g nm p suf with
    ⟨rest2, table, rest3, hlook2, hfil, heq⟩ | ⟨heq, _⟩
  · have hre : rest2 = rest := Option.some.inj (hlook2.symm.trans hlook)
    subst hre
    refine ⟨table, ?_, ?_⟩
    · rw [find?_eq_head?_filter, hfil]
      rfl
    · rw [heq] at hdt
      rw [← Option.some.inj hdt]
  · rw [heq] at hst
    have hst2 : ("failed" : String) = "confirmed" := hst
    exact absurd hst2 (by decide)

/-- C5 witness: Scenario B — the first booking on the empty store takes
table 1, and a second identical booking at the same slot confirms on table
2 (capacity 4 ≥ 2), the first remaining qualifying table: first-fit, not
exact-fit. -/
theorem c5_first_fit_witness :
    (make_reservation [] "bachevski" "2025-12-24" "19:00" 2 "Olena"
        "+380501112233" "AAAA").1.details = some
      { restaurant := "Baczewski", address := "8 Shevska Str.",
        date := "2025-12-24", time := "19:00", guests := 2, table := 1 } ∧
    (make_reservation
        (make_reservation [] "bachevski" "2025-12-24" "19:00" 2 "Olena"
          "+380501112233" "AAAA").2 "bachevski" "2025-12-24" "19:00" 2
        "Olena" "+380501112233" "BBBB").1.status = "confirmed" ∧
    (make_reservation
        (make_reservation [] "bachevski" "2025-12-24" "19:00" 2 "Olena"
          "+380501112233" "AAAA").2 "bachevski" "2025-12-24" "19:00" 2
        "Olena" "+380501112233" "BBBB").1.details = some
      { restaurant := "Baczewski", address := "8 Shevska Str.",
        date := "2025-12-24", time := "19:00", guests := 2, table := 2 } ∧
    ∃ tb, ({ name := "Baczewski", city := "Lviv",
             address := "8 Shevska Str.",
             tables := [⟨1, 2⟩, ⟨2, 4⟩, ⟨3, 6⟩, ⟨4, 8⟩],
             openTime := "10:00",
             closeTime := "23:00" } : Restaurant).tables.find?
        (availPred
          (make_reservation [] "bachevski" "2025-12-24" "19:00" 2 "Olena"
            "+380501112233" "AAAA").2 "bachevski" "2025-12-24" "19:00" 2) =
        some tb ∧
      ({ restaurant := "Baczewski", address := "8 Shevska Str.",
         date := "2025-12-24", time := "19:00", guests := 2,
         table := 2 } : MakeDetails).table = tb.id :=
  ⟨by decide, by decide, by decide,
   c5_first_fit
     (make_reservation [] "bachevski" "2025-12-24" "19:00" 2 "Olena"
       "+380501112233" "AAAA").2 "bachevski" "2025-12-24" "19:00" 2
     "Olena" "+380501112233" "BBBB"
     { name := "Baczewski", city := "Lviv", address := "8 Shevska Str.",
       tables := [⟨1, 2⟩, ⟨2, 4⟩, ⟨3, 6⟩, ⟨4, 8⟩],
       openTime := "10:00", closeTime := "23:00" }
     { restaurant := "Baczewski", address := "8 Shevska Str.",
       date := "2025-12-24", time := "19:00", guests := 2, table := 2 }
     (by decide) (by decide) (by decide)⟩

/-- C6: idempotent-safe cancellation — if `cancel_reservation` reports
cancelled for an id, calling it again with the same id on the resulting
store reports failed with the not-found error naming the id, never a second
cancelled. -/
theorem c6_cancel_twice (S : Store) (i : String)
    (h : (cancel_reservation S i).1.status = "cancelled") :
    (cancel_reservation (cancel_reservation S i).2 i).1.status = "failed" ∧
    (cancel_reservation (cancel_reservation S i).2 i).1.error =
      some ("Reservation '" ++ i ++ "' not found") := by
  rcases cancel_reservation_eq S i with ⟨_, heq⟩ | ⟨r, hl, heq⟩
  · rw [heq] at h
    have h2 : ("failed" : String) = "cancelled" := h
    exact absurd h2 (by decide)
  · have h2 : (cancel_reservation S i).2 = eraseS (eraseS S (bkeyOf r)) i := by
      rw [heq]
    rw [h2]
    have hnone : lookupS (eraseS (eraseS S (bkeyOf r)) i) i = none :=
      lookupS_eq_none (containsKey_eraseS_self _ i)
    rcases cancel_reservation_eq (eraseS (eraseS S (bkeyOf r)) i) i with
      ⟨_, heq2⟩ | ⟨r2, hl2, _⟩
    · rw [heq2]
      exact ⟨rfl, rfl⟩
    · rw [hnone] at hl2
      cases hl2

/-- C6 witness: cancel Scenario B's reservation id twice from the booked
store. -/
theorem c6_cancel_twice_witness :
    (cancel_reservation
      (make_reservation [] "bachevski" "2025-12-24" "19:00" 2 "Olena"
        "+380501112233" "AAAA").2 "RES-20251224-AAAA").1.status =
      "cancelled" ∧
    (cancel_reservation
      (cancel_reservation
        (make_reservation [] "bachevski" "2025-12-24" "19:00" 2 "Olena"
          "+380501112233" "AAAA").2 "RES-20251224-AAAA").2
      "RES-20251224-AAAA").1.status = "failed" ∧
    (cancel_reservation
      (cancel_reservation
        (make_reservation [] "bachevski" "2025-12-24" "19:00" 2 "Olena"
          "+380501112233" "AAAA").2 "RES-20251224-AAAA").2
      "RES-20251224-AAAA").1.error =
      some ("Reservation '" ++ "RES-20251224-AAAA" ++ "' not found") :=
  ⟨by decide,
   (c6_cancel_twice
     (make_reservation [] "bachevski" "2025-12-24" "19:00" 2 "Olena"
       "+380501112233" "AAAA").2 "RES-20251224-AAAA" (by decide)).1,
   (c6_cancel_twice
     (make_reservation [] "bachevski" "2025-12-24" "19:00" 2 "Olena"
       "+380501112233" "AAAA").2 "RES-20251224-AAAA" (by decide)).2⟩

/-- C7 (amended): whenever the availability check reports no availability —
both when no table qualifies and when the restaurant key is unknown —
`make_reservation` returns status failed with the generic error message
"No tables available at this time" and leaves the reservation store
unchanged; the restaurant-not-found error of the availability check is NOT
propagated into the response. -/
theorem c7_failure_no_alloc (S : Store) (r d t : String) (g : Int)
    (nm p suf : String)
    (h : (check_availability_logic S r d t g).available = false) :
    (make_reservation S r d t g nm p suf).1.status = "failed" ∧
    (make_reservation S r d t g nm p suf).1.error =
      some "No tables available at this time" ∧
    (make_reservation S r d t g nm p suf).2 = S := by
  rcases make_reservation_eq S r d t g nm p suf with
    ⟨rest, table, rest2, hlook, hfil, heq⟩ | ⟨heq, _⟩
  · rw [check_available_eq hlook, hfil] at h
    simp at h
  · rw [heq]
    exact ⟨rfl, rfl, rfl⟩

/-- C7 counterexample to the claim's second half: for an unknown restaurant
key the availability check produces the not-found error, but
`make_reservation` returns the generic no-tables message instead of
surfacing it. -/
theorem c7_counterexample :
    (check_availability_logic [] "unknown" "2025-12-24" "19:00" 2).error =
      some "Restaurant 'unknown' not found" ∧
    (make_reservation [] "unknown" "2025-12-24" "19:00" 2 "Olena"
      "+380501112233" "AAAA").1.error =
      some "No tables available at this time" ∧
    (make_reservation [] "unknown" "2025-12-24" "19:00" 2 "Olena"
      "+380501112233" "AAAA").1.error ≠
      (check_availability_logic [] "unknown" "2025-12-24" "19:00" 2).error :=
  ⟨by decide, by decide, by decide⟩

/-- C7 witness: the unknown-restaurant input, with the unavailability
hypothesis discharged concretely. -/
theorem c7_failure_no_alloc_witness :
    (check_availability_logic [] "unknown" "2025-12-24" "19:00" 2).available
      = false ∧
    (make_reservation [] "unknown" "2025-12-24" "19:00" 2 "Olena"
      "+380501112233" "AAAA").1.status = "failed" ∧
    (make_reservation [] "unknown" "2025-12-24" "19:00" 2 "Olena"
      "+380501112233" "AAAA").1.error =
      some "No tables available at this time" ∧
    (make_reservation [] "unknown" "2025-12-24" "19:00" 2 "Olena"
      "+380501112233" "AAAA").2 = [] :=
  ⟨by decide,
   c7_failure_no_alloc [] "unknown" "2025-12-24" "19:00" 2 "Olena"
     "+380501112233" "AAAA" (by decide)⟩

/-- C8: cancellation restores availability — cancelling a stored
reservation reports cancelled, removes both the booking-key entry and the
argument key, and the reservation's table (any catalog table of the
reservation's restaurant with its id and enough seats for the original
guest count) is reported available again for the same slot. -/
theorem c8_cancel_restores (S : Store) (i : String) (r : Resv)
    (rest : Restaurant) (tb : Table)
    (hl : lookupS S i = some r)
    (hrest : lookupL RESTAURANTS r.restaurant = some rest)
    (htb : tb ∈ rest.tables) (hid : tb.id = r.table_id)
    (hseats : r.guests ≤ tb.seats) :
    (cancel_reservation S i).1.status = "cancelled" ∧
    containsKey (cancel_reservation S i).2 (bkeyOf r) = false ∧
    containsKey (cancel_reservation S i).2 i = false ∧
    tb ∈ (check_availability_logic (cancel_reservation S i).2
        r.restaurant r.date r.time r.guests).tables := by
  rcases cancel_reservation_eq S i with ⟨hn, _⟩ | ⟨r2, hl2, heq⟩
  · rw [hn] at hl
    cases hl
  · have hr2 : r2 = r := Option.some.inj (hl2.symm.trans hl)
    subst hr2
    have h2 : (cancel_reservation S i).2 = eraseS (eraseS S (bkeyOf r2)) i := by
      rw [heq]
    have h1 : (cancel_reservation S i).1.status = "cancelled" := by
      rw [heq]
    refine ⟨h1, ?_, ?_, ?_⟩
    · rw [h2]
      exact containsKey_eraseS_mono (containsKey_eraseS_self S (bkeyOf r2))
    · rw [h2]
      exact containsKey_eraseS_self _ i
    · rw [h2, check_tables_eq hrest, List.mem_filter]
      refine ⟨htb, ?_⟩
      simp only [availPred, Bool.and_eq_true, decide_eq_true_eq,
        Bool.not_eq_true']
      refine ⟨hseats, ?_⟩
      rw [hid]
      exact containsKey_eraseS_mono (containsKey_eraseS_self S (bkeyOf r2))

/-- C8 witness: Scenario D — cancel Scenario B's reservation by its id and
see table 1 of "bachevski" available again at the same slot. -/
theorem c8_cancel_restores_witness :
    lookupS
      (make_reservation [] "bachevski" "2025-12-24" "19:00" 2 "Olena"
        "+380501112233" "AAAA").2 "RES-20251224-AAAA" = some
      { reservation_id := "RES-20251224-AAAA", restaurant := "bachevski",
        restaurant_name := "Baczewski", address := "8 Shevska Str.",
        date := "2025-12-24", time := "19:00", guests := 2, table_id := 1,
        name := "Olena", phone := "+380501112233", status := "confirmed" } ∧
    (cancel_reservation
      (make_reservation [] "bachevski" "2025-12-24" "19:00" 2 "Olena"
        "+380501112233" "AAAA").2 "RES-20251224-AAAA").1.status =
      "cancelled" ∧
    (⟨1, 2⟩ : Table) ∈ (check_availability_logic
      (cancel_reservation
        (make_reservation [] "bachevski" "2025-12-24" "19:00" 2 "Olena"
          "+380501112233" "AAAA").2 "RES-20251224-AAAA").2
      "bachevski" "2025-12-24" "19:00" 2).tables := by
  have happ := c8_cancel_restores
    (make_reservation [] "bachevski" "2025-12-24" "19:00" 2 "Olena"
      "+380501112233" "AAAA").2 "RES-20251224-AAAA"
    { reservation_id := "RES-20251224-AAAA", restaurant := "bachevski",
      restaurant_name := "Baczewski", address := "8 Shevska Str.",
      date := "2025-12-24", time := "19:00", guests := 2, table_id := 1,
      name := "Olena", phone := "+380501112233", status := "confirmed" }
    { name := "Baczewski", city := "Lviv", address := "8 Shevska Str.",
      tables := [⟨1, 2⟩, ⟨2, 4⟩, ⟨3, 6⟩, ⟨4, 8⟩],
      openTime := "10:00", closeTime := "23:00" }
    ⟨1, 2⟩ (by decide) (by decide) (by decide) (by decide) (by decide)
  exact ⟨by decide, happ.1, happ.2.2.2⟩

theorem lookupR_eq {x : String} {rest : Restaurant}
    (h : lookupL RESTAURANTS x = some rest) :
    (x = "bachevski" ∧ rest =
      { name := "Baczewski", city := "Lviv", address := "8 Shevska Str.",
        tables := [⟨1, 2⟩, ⟨2, 4⟩, ⟨3, 6⟩, ⟨4, 8⟩],
        openTime := "10:00", closeTime := "23:00" }) ∨
    (x = "kryivka" ∧ rest =
      { name := "Kryivka", city := "Lviv", address := "14 Rynok Sq.",
        tables := [⟨1, 4⟩, ⟨2, 4⟩, ⟨3, 6⟩],
        openTime := "12:00", closeTime := "00:00" }) := by
  rcases lookupR_cases h with hb | hb <;> subst hb
  · left
    refine ⟨rfl, ?_⟩
    have h0 : lookupL RESTAURANTS "bachevski" = some
      { name := "Baczewski", city := "Lviv", address := "8 Shevska Str.",
        tables := [⟨1, 2⟩, ⟨2, 4⟩, ⟨3, 6⟩, ⟨4, 8⟩],
        openTime := "10:00", closeTime := "23:00" } := by decide
    exact (Option.some.inj (h0.symm.trans h)).symm
  · right
    refine ⟨rfl, ?_⟩
    have h0 : lookupL RESTAURANTS "kryivka" = some
      { name := "Kryivka", city := "Lviv", address := "14 Rynok Sq.",
        tables := [⟨1, 4⟩, ⟨2, 4⟩, ⟨3, 6⟩],
        openTime := "12:00", closeTime := "00:00" } := by decide
    exact (Option.some.inj (h0.symm.trans h)).symm

theorem catalog_seats_pos {x : String} {rest : Restaurant}
    (h : lookupL RESTAURANTS x = some rest) :
    ∀ tb ∈ rest.tables, (0 : Int) < tb.seats := by
  rcases lookupR_eq h with ⟨-, hr⟩ | ⟨-, hr⟩ <;> subst hr <;> decide

/-- C9: the positive-guests precondition is not enforced — for a known
restaurant and any guest count ≤ 0, the availability check reports no error
and every table of the restaurant whose booking key is free qualifies (the
capacity comparison is vacuous because all catalog capacities are
positive), and `make_reservation` confirms a booking whenever any table of
the restaurant is free at the slot. -/
theorem c9_nonpositive_guests (S : Store) (r d t : String) (g : Int)
    (nm p suf : String) (rest : Restaurant)
    (hlook : lookupL RESTAURANTS r = some rest) (hg : g ≤ 0) :
    (check_availability_logic S r d t g).error = none ∧
    (check_availability_logic S r d t g).tables =
      rest.tables.filter (fun tb =>
        !containsKey S (booking_key r d t tb.id)) ∧
    ((∃ tb ∈ rest.tables, containsKey S (booking_key r d t tb.id) = false) →
      (make_reservation S r d t g nm p suf).1.status = "confirmed") := by
  have hseats := catalog_seats_pos hlook
  refine ⟨check_error_eq hlook, ?_, ?_⟩
  · rw [check_tables_eq hlook]
    apply List.filter_congr
    intro tb htb
    have hdec : decide (g ≤ tb.seats) = true :=
      decide_eq_true (le_trans hg (le_of_lt (hseats tb htb)))
    simp [availPred, hdec]
  · rintro ⟨tb, htb, hfree⟩
    rcases make_reservation_eq S r d t g nm p suf with
      ⟨rest2, table, rest3, hlook2, hfil, heq⟩ | ⟨heq, hfail⟩
    · rw [heq]
    · exfalso
      rcases hfail with hnone | ⟨rest2, hlook2, hfil⟩
      · rw [hlook] at hnone
        cases hnone
      · have hre : rest2 = rest := Option.some.inj (hlook2.symm.trans hlook)
        rw [hre] at hfil
        have hmem : tb ∈ rest.tables.filter (availPred S r d t g) :=
          List.mem_filter.mpr ⟨htb, by
            simp only [availPred, hfree, Bool.not_false, Bool.and_true]
            exact decide_eq_true (le_trans hg (le_of_lt (hseats tb htb)))⟩
        rw [hfil] at hmem
        cases hmem

/-- C9 witness: guests = -1 at "bachevski" on the empty store — no error,
all four tables reported, and a booking for -1 guests confirms. -/
theorem c9_nonpositive_guests_witness :
    lookupL RESTAURANTS "bachevski" = some
      { name := "Baczewski", city := "Lviv", address := "8 Shevska Str.",
        tables := [⟨1, 2⟩, ⟨2, 4⟩, ⟨3, 6⟩, ⟨4, 8⟩],
        openTime := "10:00", closeTime := "23:00" } ∧
    (-1 : Int) ≤ 0 ∧
    (check_availability_logic [] "bachevski" "2025-12-24" "19:00"
      (-1)).error = none ∧
    (make_reservation [] "bachevski" "2025-12-24" "19:00" (-1) "Olena"
      "+380501112233" "AAAA").1.status = "confirmed" := by
  have happ := c9_nonpositive_guests [] "bachevski" "2025-12-24" "19:00"
    (-1) "Olena" "+380501112233" "AAAA"
    { name := "Baczewski", city := "Lviv", address := "8 Shevska Str.",
      tables := [⟨1, 2⟩, ⟨2, 4⟩, ⟨3, 6⟩, ⟨4, 8⟩],
      openTime := "10:00", closeTime := "23:00" } (by decide) (by decide)
  exact ⟨by decide, by decide, happ.1,
    happ.2.2 ⟨⟨1, 2⟩, by decide, by decide⟩⟩

/-- C10 (amended): `cancel_reservation` looks its argument up in the single
shared map, so calling it with the booking-key string of an active
reservation returns status cancelled — but it removes only the booking-key
entry (popping the same key twice); the reservation-id entry is left in the
store untouched, not removed. -/
theorem c10_cancel_by_booking_key (S : Store) (K : String) (r : Resv)
    (hl : lookupS S K = some r) (hbk : K = bkeyOf r)
    (hne : K ≠ r.reservation_id) :
    (cancel_reservation S K).1.status = "cancelled" ∧
    containsKey (cancel_reservation S K).2 K = false ∧
    lookupS (cancel_reservation S K).2 r.reservation_id =
      lookupS S r.reservation_id := by
  rcases cancel_reservation_eq S K with ⟨hn, _⟩ | ⟨r2, hl2, heq⟩
  · rw [hn] at hl
    cases hl
  · have hr2 : r2 = r := Option.some.inj (hl2.symm.trans hl)
    subst hr2
    have h2 : (cancel_reservation S K).2 = eraseS (eraseS S (bkeyOf r2)) K := by
      rw [heq]
    have h1 : (cancel_reservation S K).1.status = "cancelled" := by
      rw [heq]
    refine ⟨h1, ?_, ?_⟩
    · rw [h2]
      exact containsKey_eraseS_self _ K
    · rw [h2]
      rw [lookupS_eraseS_ne (fun hh => hne hh.symm),
        lookupS_eraseS_ne (fun hh => hne (hbk.trans hh.symm))]

/-- C10 counterexample to the "removes that reservation's two entries" part
of the claim: after Scenario B's booking, cancelling by the booking-key
string reports cancelled, yet the reservation-id entry is still present in
the store. -/
theorem c10_counterexample :
    (cancel_reservation
      (make_reservation [] "bachevski" "2025-12-24" "19:00" 2 "Olena"
        "+380501112233" "AAAA").2 "bachevski_2025-12-24_19:00_1").1.status =
      "cancelled" ∧
    lookupS
      (cancel_reservation
        (make_reservation [] "bachevski" "2025-12-24" "19:00" 2 "Olena"
          "+380501112233" "AAAA").2 "bachevski_2025-12-24_19:00_1").2
      "RES-20251224-AAAA" ≠ none :=
  ⟨by decide, by decide⟩

/-- C10 witness: the same concrete input, through the amended theorem. -/
theorem c10_cancel_by_booking_key_witness :
    lookupS
      (make_reservation [] "bachevski" "2025-12-24" "19:00" 2 "Olena"
        "+380501112233" "AAAA").2 "bachevski_2025-12-24_19:00_1" = some
      { reservation_id := "RES-20251224-AAAA", restaurant := "bachevski",
        restaurant_name := "Baczewski", address := "8 Shevska Str.",
        date := "2025-12-24", time := "19:00", guests := 2, table_id := 1,
        name := "Olena", phone := "+380501112233", status := "confirmed" } ∧
    (cancel_reservation
      (make_reservation [] "bachevski" "2025-12-24" "19:00" 2 "Olena"
        "+380501112233" "AAAA").2 "bachevski_2025-12-24_19:00_1").1.status =
      "cancelled" ∧
    lookupS
      (cancel_reservation
        (make_reservation [] "bachevski" "2025-12-24" "19:00" 2 "Olena"
          "+380501112233" "AAAA").2 "bachevski_2025-12-24_19:00_1").2
      "RES-20251224-AAAA" =
    lookupS
      (make_reservation [] "bachevski" "2025-12-24" "19:00" 2 "Olena"
        "+380501112233" "AAAA").2 "RES-20251224-AAAA" := by
  have happ := c10_cancel_by_booking_key
    (make_reservation [] "bachevski" "2025-12-24" "19:00" 2 "Olena"
      "+380501112233" "AAAA").2 "bachevski_2025-12-24_19:00_1"
    { reservation_id := "RES-20251224-AAAA", restaurant := "bachevski",
      restaurant_name := "Baczewski", address := "8 Shevska Str.",
      date := "2025-12-24", time := "19:00", guests := 2, table_id := 1,
      name := "Olena", phone := "+380501112233", status := "confirmed" }
    (by decide) (by decide) (by decide)
  exact ⟨by decide, happ.1, happ.2.2⟩
